import Mathlib

/-!
# Verification of the gulp-htmlcs file-lint-and-aggregate pipeline

Shallow embedding of `src/index.js` (module `hny-gulp-htmlcs`).  The module
is a gulp pipeline stage: an option resolver (`gulpHtmlcs` prologue), a
result normalizer (`formatResult`), a per-file callback (`onFile`) and a
stream-completion callback (`onStreamEnd`).  External collaborators
(`htmlcs.hint`, `htmlcsConfig.parse` composed with `fs.readFileSync`, the
reporter functions produced by `reporterFactory`) are modelled as function
parameters; the host stream's `this.emit('error', ...)` and the completion
callback `done` are modelled as explicit output fields.
-/

namespace GulpHtmlcs

/-- A raw issue record produced by the external `htmlcs.hint` engine:
`{line, column, rule, type, message, code}`.  `type` is the native
classification string, `'ERROR'` or `'WARNING'` in practice; we keep it as
an arbitrary string because the code only ever compares and lower-cases it. -/
structure IssueRecord where
  line : Nat
  column : Nat
  rule : String
  type : String
  message : String
  code : String
deriving Repr, DecidableEq

/-- One value of the `errorLevel` option map.  In JS it is an object that may
or may not carry a `severity` field; `severity := none` models the field
being absent (`undefined`). -/
structure ErrorLevelEntry where
  severity : Option String
deriving Repr, DecidableEq

/-- The `errorLevel` plugin option: a JS object mapping rule names to
entries, modelled as an association list (JS object keys are unique). -/
abbrev ErrorLevel := List (String × ErrorLevelEntry)

/-- Lookup `errorLevel[rule]`: first-match association-list lookup. -/
def lookupRule : ErrorLevel → String → Option ErrorLevelEntry
  | [], _ => none
  | (k, e) :: rest, r => if k = r then some e else lookupRule rest r

/-- A normalized warning, the element shape built inside `formatResult`'s
`result.map` callback. -/
structure Warning where
  line : Nat
  column : Nat
  rule : String
  severity : String
  text : String
  code : String
deriving Repr, DecidableEq

/-- The per-file result record built by `formatResult`. -/
structure FileLintResult where
  source : String
  errored : Bool
  warnings : List Warning
  deprecations : List String
  invalidOptionWarnings : List String
  ignored : Bool
deriving Repr, DecidableEq

/-- The envelope `{results: [ ... ]}` returned by `formatResult`, matching
the stylelint reporter contract. -/
structure LintEnvelope where
  results : List FileLintResult
deriving Repr, DecidableEq

/-- JS `s || fallback` specialised to strings: the empty string is falsy,
every other string is truthy. -/
def jsStringOr (s fallback : String) : String :=
  if s = "" then fallback else s

/-- Evaluation of `errorLevel[item.rule]['severity'] || 'warning'`: reading the `severity`
field of an entry yields `undefined` when absent, and `|| 'warning'` maps
both `undefined` and the falsy empty string to `'warning'`. -/
def overrideSeverity (e : ErrorLevelEntry) : String :=
  match e.severity with
  | some s => jsStringOr s "warning"
  | none => "warning"

/-- The severity computed for one record inside `formatResult`:
`let severity = item.type.toLowerCase(); if (errorLevel[item.rule])
{ severity = errorLevel[item.rule]['severity'] || 'warning'; }`.
Entries of `errorLevel` are objects, hence truthy, so presence of the key
decides which branch applies. -/
def computeSeverity (errorLevel : ErrorLevel) (item : IssueRecord) : String :=
  match lookupRule errorLevel item.rule with
  | some e => overrideSeverity e
  | none => item.type.toLower

/-- The warning object returned from `formatResult`'s map callback. -/
def toWarning (errorLevel : ErrorLevel) (item : IssueRecord) : Warning :=
  { line := item.line
    column := item.column
    rule := item.rule
    severity := computeSeverity errorLevel item
    text := item.message
    code := item.code }

/-- One step of `formatResult`'s traversal: the JS `result.map` callback also
mutates the outer `errored` flag (`if (item.type === 'ERROR') errored = true;`),
so we thread the pair (errored flag, warnings so far) through a fold. -/
def formatStep (errorLevel : ErrorLevel) (acc : Bool × List Warning)
    (item : IssueRecord) : Bool × List Warning :=
  (acc.1 || (item.type == "ERROR"), acc.2 ++ [toWarning errorLevel item])

/-- The function `formatResult(result, source)` from `src/index.js`. -/
def formatResult (errorLevel : ErrorLevel) (result : List IssueRecord)
    (source : String) : LintEnvelope :=
  let folded := result.foldl (formatStep errorLevel) (false, [])
  { results := [{ source := source
                  errored := folded.1
                  warnings := folded.2
                  deprecations := []
                  invalidOptionWarnings := []
                  ignored := false }] }

/-! ## File processor (`onFile`) -/

/-- The external `htmlcs` configuration produced by
`htmlcsConfig.parse(readFile(path))`; opaque to this plugin. -/
structure HtmlcsConfig where
  raw : String
deriving Repr, DecidableEq

/-- The resolved plugin options relevant to the pipeline callbacks
(`pluginOptions` after the `deepExtend` of defaults; the generic option
resolver itself is modelled separately on JSON-like values below). -/
structure PluginOptions where
  failAfterError : Bool
  debug : Bool
  errorLevel : ErrorLevel
  configFile : Option String
deriving Repr, DecidableEq

/-- A `PluginError` as emitted on the stream's error channel: the message
(or wrapped underlying error's message) and the `showStack` option. -/
structure PluginError where
  message : String
  showStack : Bool
deriving Repr, DecidableEq

/-- A vinyl file's contents: `isNull()`, `isStream()`, or a buffer whose
`contents.toString()` is the given text. -/
inductive FileContents where
  | null
  | stream
  | buffer (text : String)
deriving Repr, DecidableEq

/-- A vinyl file as seen by `onFile`. -/
structure VinylFile where
  path : String
  contents : FileContents
deriving Repr, DecidableEq

/-- The external lint engine `htmlcs.hint(code, config)`; `none` for the
config argument models the default one-argument call `htmlcs.hint(code)`. -/
abbrev Hint := String → Option HtmlcsConfig → List IssueRecord

/-- The external combination `htmlcsConfig.parse(readFile(path))`: reading
or parsing may throw, carrying an error message. -/
abbrev ConfigLoad := String → Except String HtmlcsConfig

/-- Everything one `onFile` invocation does: errors emitted via
`this.emit('error', ...)`, envelopes pushed onto `lintPromiseList`,
the file passed to `done` (`none` for a bare `done()`), and how many times
`done` was invoked. -/
structure OnFileResult where
  emitted : List PluginError
  pushed : List LintEnvelope
  forwarded : Option VinylFile
  doneCalls : Nat
deriving Repr, DecidableEq

/-- The config-resolution prologue of `onFile`'s buffered branch: when
`configFile` is set, try to load it; on failure emit a `PluginError` with
`showStack: Boolean(pluginOptions.debug)` and keep the default `htmlcs.hint`.
Returns the config bound into the hint call (if any) and the emitted errors. -/
def resolveHintConfig (opts : PluginOptions) (configLoad : ConfigLoad) :
    Option HtmlcsConfig × List PluginError :=
  match opts.configFile with
  | none => (none, [])
  | some path =>
    match configLoad path with
    | Except.ok cfg => (some cfg, [])
    | Except.error msg => (none, [{ message := msg, showStack := opts.debug }])

/-- The callback `onFile(file, encoding, done)` from `src/index.js`.  The encoding
argument is unused by the source and omitted. -/
def onFile (opts : PluginOptions) (hint : Hint) (configLoad : ConfigLoad)
    (file : VinylFile) : OnFileResult :=
  match file.contents with
  | FileContents.null =>
    { emitted := [], pushed := [], forwarded := some file, doneCalls := 1 }
  | FileContents.stream =>
    { emitted := [{ message := "Streaming is not supported", showStack := false }]
      pushed := []
      forwarded := none
      doneCalls := 1 }
  | FileContents.buffer text =>
    let resolved := resolveHintConfig opts configLoad
    { emitted := resolved.2
      pushed := [formatResult opts.errorLevel (hint text resolved.1) file.path]
      forwarded := some file
      doneCalls := 1 }

/-- Accumulated stream state after a sequence of `onFile` invocations:
the `lintPromiseList` closure variable, all errors emitted so far, and the
files forwarded downstream. -/
structure PipelineState where
  lintPromiseList : List LintEnvelope
  emitted : List PluginError
  forwarded : List VinylFile
deriving Repr, DecidableEq

/-- One `onFile` invocation folded into the stream state. -/
def processStep (opts : PluginOptions) (hint : Hint) (configLoad : ConfigLoad)
    (st : PipelineState) (file : VinylFile) : PipelineState :=
  let r := onFile opts hint configLoad file
  { lintPromiseList := st.lintPromiseList ++ r.pushed
    emitted := st.emitted ++ r.emitted
    forwarded := st.forwarded ++ r.forwarded.toList }

/-- Feed the files of the upstream stream through `onFile`, in arrival
order, starting from the empty `lintPromiseList`. -/
def processFiles (opts : PluginOptions) (hint : Hint) (configLoad : ConfigLoad)
    (files : List VinylFile) : PipelineState :=
  files.foldl (processStep opts hint configLoad)
    { lintPromiseList := [], emitted := [], forwarded := [] }

/-! ## Completion aggregator (`onStreamEnd`) -/

/-- A reporter produced by `reporterFactory`: takes the flattened result
array, returns a promise that either resolves or rejects with an error
message.  The only failure source in the aggregator's promise chain — the
awaited `lintPromiseList` entries are already plain values in this plugin. -/
abbrev Reporter := List FileLintResult → Except String Unit

/-- The reduction `lintResults.reduce((accumulated, res) => accumulated.concat(res.results), [])`
from `passLintResultsThroughReporters`. -/
def flattenResults (lintResults : List LintEnvelope) : List FileLintResult :=
  lintResults.foldl (fun acc env => acc ++ env.results) []

/-- The map `reporters.map(reporter => reporter(warnings))`: every reporter is
invoked once with the flattened array. -/
def runReporters (reporters : List Reporter) (flat : List FileLintResult) :
    List (Except String Unit) :=
  reporters.map (fun r => r flat)

/-- The `Promise.all` over the reporter promises: the first rejection, if any. -/
def firstError : List (Except String Unit) → Option String
  | [] => none
  | Except.error e :: _ => some e
  | Except.ok _ :: rest => firstError rest

/-- The predicate `isErrorSeverity(warning)` from `src/index.js`. -/
def isErrorSeverity (w : Warning) : Bool :=
  w.severity == "error"

/-- One summand of the `errorCount` reduce:
`res.results[0].warnings.filter(isErrorSeverity).length`.  In this plugin
`results` is always the singleton produced by `formatResult`; an empty
`results` (which would throw in JS) contributes 0 here and never occurs in
the pipeline. -/
def countFileErrors (env : LintEnvelope) : Nat :=
  match env.results with
  | [] => 0
  | r :: _ => (r.warnings.filter isErrorSeverity).length

/-- The reduction `lintResults.reduce((sum, res) => sum + errors.length, 0)` from
`onStreamEnd`. -/
def errorCountOf (lintResults : List LintEnvelope) : Nat :=
  lintResults.foldl (fun sum env => sum + countFileErrors env) 0

/-- The template literal
``Failed with ${errorCount} ${errorCount === 1 ? 'error' : 'errors'}``. -/
def thresholdMessage (errorCount : Nat) : String :=
  "Failed with " ++ toString errorCount ++ " " ++
    (if errorCount == 1 then "error" else "errors")

/-- The Deciding step of `onStreamEnd`: the errors emitted after reporting
succeeded — `if (pluginOptions.failAfterError && errorCount > 0)` emit the
threshold `PluginError` (no `showStack` option, hence false). -/
def decideErrors (opts : PluginOptions) (lintResults : List LintEnvelope) :
    List PluginError :=
  if opts.failAfterError = true ∧ 0 < errorCountOf lintResults then
    [{ message := thresholdMessage (errorCountOf lintResults), showStack := false }]
  else []

/-- Everything one `onStreamEnd` invocation does: the argument each
reporter was invoked with (in reporter order), the errors emitted on the
stream, and how many times the stream-completion callback `done` ran. -/
structure StreamEndResult where
  reporterInvocations : List (List FileLintResult)
  emitted : List PluginError
  doneCalls : Nat
deriving Repr, DecidableEq

/-- The callback `onStreamEnd(done)` from `src/index.js`: await the (already resolved)
`lintPromiseList`, flatten, run every reporter, then either decide
pass/fail and call `done`, or — if the reporter `Promise.all` rejected —
emit the wrapped error with `showStack: Boolean(pluginOptions.debug)`,
skip the deciding step, and still call `done`. -/
def onStreamEnd (opts : PluginOptions) (reporters : List Reporter)
    (lintResults : List LintEnvelope) : StreamEndResult :=
  let flat := flattenResults lintResults
  let outcomes := runReporters reporters flat
  match firstError outcomes with
  | some e =>
    { reporterInvocations := reporters.map (fun _ => flat)
      emitted := [{ message := e, showStack := opts.debug }]
      doneCalls := 1 }
  | none =>
    { reporterInvocations := reporters.map (fun _ => flat)
      emitted := decideErrors opts lintResults
      doneCalls := 1 }

/-! ## Option resolver (`gulpHtmlcs` prologue)

The options object is untyped JS data, so the resolver is modelled on a
JSON-like value type.  `deepExtend` is the external `deep-extend` package
(recursive object extending: source keys are written over the target,
recursing when both sides hold plain objects, otherwise the source value —
cloning is the identity at the value level). -/

/-- A JS value as far as the option resolver is concerned. -/
inductive JVal where
  | nullv
  | bool (b : Bool)
  | num (n : Int)
  | str (s : String)
  | arr (elems : List JVal)
  | obj (fields : List (String × JVal))

/-- Reading `o[key]` on a JS object modelled as an association list (first match;
real JS objects have unique keys). -/
def lookupField : List (String × JVal) → String → Option JVal
  | [], _ => none
  | (k, v) :: rest, key => if k = key then some v else lookupField rest key

/-- Assignment `o[key] = v`: overwrite the first binding of `key` in place, or append
a new binding (JS objects preserve insertion order). -/
def setField : List (String × JVal) → String → JVal → List (String × JVal)
  | [], key, v => [(key, v)]
  | (k, w) :: rest, key, v =>
    if k = key then (k, v) :: rest else (k, w) :: setField rest key v

mutual

/-- The merge `deepExtend(target, source)` on values: plain objects merge
recursively, any other source value replaces the target. -/
def deepExtendVal : JVal → JVal → JVal
  | JVal.obj tf, JVal.obj sf => JVal.obj (deepExtendFields tf sf)
  | _, s => s

/-- The field loop of `deepExtend`: write every source field over the
target, merging when the target already binds the key. -/
def deepExtendFields : List (String × JVal) → List (String × JVal) →
    List (String × JVal)
  | tf, [] => tf
  | tf, (key, v) :: rest =>
    let newVal :=
      match lookupField tf key with
      | some old => deepExtendVal old v
      | none => v
    deepExtendFields (setField tf key newVal) rest

end

/-- The defaults object passed first to `deepExtend` in `gulpHtmlcs`:
`{failAfterError: true, debug: false, errorLevel: {}}`. -/
def defaultOptions : List (String × JVal) :=
  [("failAfterError", JVal.bool true),
   ("debug", JVal.bool false),
   ("errorLevel", JVal.obj [])]

/-- The assignment `pluginOptions = deepExtend({failAfterError: true, debug: false,
errorLevel: {}}, options)`.  `deep-extend` skips non-object arguments, so
an absent (`none`) caller object leaves the defaults untouched. -/
def mkPluginOptionsVal (options : Option (List (String × JVal))) :
    List (String × JVal) :=
  match options with
  | none => defaultOptions
  | some fields => deepExtendFields defaultOptions fields

/-- The fields deleted from `lintOptions`: `files`, `formatter` (stylelint
options that cannot be used) and `reportOutputDir`, `reporters`, `debug`
(plugin-only options). -/
def strippedFields : List String :=
  ["files", "formatter", "reportOutputDir", "reporters", "debug"]

/-- Deletion `delete o[key]`. -/
def deleteField (fields : List (String × JVal)) (key : String) :
    List (String × JVal) :=
  fields.filter (fun p => p.1 ≠ key)

/-- The assignment `lintOptions = deepExtend({}, options)` followed by the five `delete`
statements. -/
def mkLintOptionsVal (options : Option (List (String × JVal))) :
    List (String × JVal) :=
  let copied :=
    match options with
    | none => []
    | some fields => deepExtendFields [] fields
  strippedFields.foldl deleteField copied

/-! ## Derived and spec-side notions -/

/-- Files that are neither `isStream()` nor `isNull()`: the ones the plugin lints. -/
def isBufferFile (f : VinylFile) : Bool :=
  match f.contents with
  | FileContents.buffer _ => true
  | _ => false

/-- The text of a buffered file (`file.contents.toString()`); dummy for the
other variants, which never reach the lint call. -/
def bufferTextOf : FileContents → String
  | FileContents.buffer t => t
  | _ => ""

/-- The envelope `onFile` pushes for a buffered file. -/
def lintEnvelopeOf (opts : PluginOptions) (hint : Hint) (configLoad : ConfigLoad)
    (f : VinylFile) : LintEnvelope :=
  formatResult opts.errorLevel
    (hint (bufferTextOf f.contents) (resolveHintConfig opts configLoad).1) f.path

/-- The per-file result record for a buffered file, written out field by
field. -/
def fileLintResultOf (opts : PluginOptions) (hint : Hint) (configLoad : ConfigLoad)
    (f : VinylFile) : FileLintResult :=
  { source := f.path
    errored := (hint (bufferTextOf f.contents) (resolveHintConfig opts configLoad).1).any
      (fun i => i.type == "ERROR")
    warnings := (hint (bufferTextOf f.contents) (resolveHintConfig opts configLoad).1).map
      (toWarning opts.errorLevel)
    deprecations := []
    invalidOptionWarnings := []
    ignored := false }

/-- Spec-side severity resolution, following the (amended) specification
text: an existing override entry with a non-empty severity value wins; an
entry whose severity is absent or empty yields `'warning'`; no entry
yields the lower-cased native type. -/
def specSeverity (errorLevel : ErrorLevel) (item : IssueRecord) : String :=
  match lookupRule errorLevel item.rule with
  | some entry =>
    match entry.severity with
    | some s => if s = "" then "warning" else s
    | none => "warning"
  | none => item.type.toLower

/-- Spec-side error count: the number of warnings across all files whose
severity equals exactly `'error'`. -/
def specErrorCount (results : List FileLintResult) : Nat :=
  (results.map (fun r => (r.warnings.filter (fun w => w.severity == "error")).length)).sum

/-! ## Concrete instances used by witnesses and counterexamples -/

/-- An `errorLevel` with an override entry whose `severity` value is the empty
string (a falsy JS string). -/
def errorLevelEmptySeverity : ErrorLevel :=
  [("no-empty-tag", { severity := some "" })]

/-- A warning-typed record whose rule has the empty-string override above. -/
def recordEmptySeverity : IssueRecord :=
  { line := 3, column := 5, rule := "no-empty-tag", type := "WARNING",
    message := "Empty tag found", code := "043" }

/-- Resolved options with all defaults. -/
def optsDefault : PluginOptions :=
  { failAfterError := true, debug := false, errorLevel := [], configFile := none }

/-- Resolved options with `configFile` set and `debug: true`. -/
def optsWithConfig : PluginOptions :=
  { failAfterError := true, debug := true, errorLevel := [],
    configFile := some ".htmlcsrc" }

/-- A lint engine returning no issues. -/
def hintEmpty : Hint := fun _ _ => []

/-- A config loader whose read/parse always throws. -/
def configLoadFailing : ConfigLoad := fun _ => Except.error "Unexpected token"

/-- A reporter whose promise rejects. -/
def reporterFailing : Reporter := fun _ => Except.error "reporter blew up"

/-- A per-file result holding exactly one error-severity warning. -/
def resultOneError : FileLintResult :=
  { source := "a.html", errored := true,
    warnings := [{ line := 1, column := 2, rule := "r", severity := "error",
                   text := "boom", code := "001" }],
    deprecations := [], invalidOptionWarnings := [], ignored := false }

/-- An `errorLevel` demoting one rule to warning and escalating another to
error. -/
def errorLevelOverrides : ErrorLevel :=
  [("attr-lowercase", { severity := some "warning" }),
   ("no-empty-tag", { severity := some "error" })]

/-- An error-typed record whose rule is demoted by the overrides above. -/
def recordErrorOverridden : IssueRecord :=
  { line := 1, column := 1, rule := "attr-lowercase", type := "ERROR",
    message := "attribute name must be lowercase", code := "001" }

/-- A warning-typed record whose rule is escalated by the overrides above. -/
def recordWarningEscalated : IssueRecord :=
  { line := 2, column := 2, rule := "no-empty-tag", type := "WARNING",
    message := "empty tag found", code := "002" }

/-- Resolved options carrying the overrides above. -/
def optsOverride : PluginOptions :=
  { failAfterError := true, debug := false, errorLevel := errorLevelOverrides,
    configFile := none }

/-- A caller-supplied options object. -/
def callerOptions : List (String × JVal) :=
  [("failAfterError", JVal.bool false),
   ("reporters", JVal.arr []),
   ("errorLevel", JVal.obj [("no-empty-tag", JVal.obj [("severity", JVal.str "error")])]),
   ("configFile", JVal.str ".htmlcsrc")]

/-! ## General lemmas about the normalizer and aggregator -/

/-- Unfolding of the `formatResult` fold: the errored flag is an `any` over
the records and the warnings are the records mapped through `toWarning`,
in order. -/
theorem formatFold_spec (errorLevel : ErrorLevel) (result : List IssueRecord) :
    ∀ (b : Bool) (ws : List Warning),
      result.foldl (formatStep errorLevel) (b, ws) =
        (b || result.any (fun i => i.type == "ERROR"),
          ws ++ result.map (toWarning errorLevel)) := by
  induction result with
  | nil => intro b ws; simp
  | cons item rest ih =>
    intro b ws
    simp only [List.foldl_cons, formatStep, ih, List.any_cons, List.map_cons]
    rw [Bool.or_assoc]
    simp

/-- Closed form of `formatResult`: a singleton results list whose fields are
computed pointwise from the input records. -/
theorem formatResult_spec (errorLevel : ErrorLevel) (result : List IssueRecord)
    (source : String) :
    formatResult errorLevel result source =
      { results := [{ source := source
                      errored := result.any (fun i => i.type == "ERROR")
                      warnings := result.map (toWarning errorLevel)
                      deprecations := []
                      invalidOptionWarnings := []
                      ignored := false }] } := by
  simp [formatResult, formatFold_spec]


/-- The code's severity computation agrees with the spec-side resolution. -/
theorem computeSeverity_eq_specSeverity (errorLevel : ErrorLevel)
    (item : IssueRecord) :
    computeSeverity errorLevel item = specSeverity errorLevel item := by
  unfold computeSeverity specSeverity overrideSeverity jsStringOr
  cases lookupRule errorLevel item.rule with
  | none => rfl
  | some entry => cases entry.severity <;> rfl

/-! ## Helper lemmas -/

theorem string_append_assoc (a b c : String) :
    (a ++ b) ++ c = a ++ (b ++ c) := by
  cases a with | mk la =>
  cases b with | mk lb =>
  cases c with | mk lc =>
  show String.mk ((la ++ lb) ++ lc) = String.mk (la ++ (lb ++ lc))
  exact congrArg String.mk (List.append_assoc la lb lc)

theorem thresholdMessage_one : thresholdMessage 1 = "Failed with 1 error" := by
  rfl

theorem thresholdMessage_of_ne_one (c : Nat) (h : c ≠ 1) :
    thresholdMessage c = "Failed with " ++ toString c ++ " errors" := by
  unfold thresholdMessage
  have hb : (c == 1) = false := by simp [h]
  rw [hb]
  simp only [Bool.false_eq_true, if_false]
  rw [string_append_assoc ("Failed with " ++ toString c) " " "errors"]
  rfl

theorem errorCount_foldl (rs : List LintEnvelope) :
    ∀ a : Nat, rs.foldl (fun sum env => sum + countFileErrors env) a =
      a + (rs.map countFileErrors).sum := by
  induction rs with
  | nil => intro a; simp
  | cons e rest ih =>
    intro a
    simp only [List.foldl_cons, List.map_cons, List.sum_cons, ih]
    omega

theorem errorCountOf_singletons (perFile : List FileLintResult) :
    errorCountOf (perFile.map (fun r => LintEnvelope.mk [r])) =
      specErrorCount perFile := by
  unfold errorCountOf specErrorCount
  rw [errorCount_foldl, Nat.zero_add, List.map_map]
  rfl

theorem flatten_foldl (rs : List LintEnvelope) :
    ∀ acc : List FileLintResult,
      rs.foldl (fun acc env => acc ++ env.results) acc =
        acc ++ (rs.map LintEnvelope.results).flatten := by
  induction rs with
  | nil => intro acc; simp
  | cons e rest ih =>
    intro acc
    simp only [List.foldl_cons, List.map_cons, List.flatten, ih]
    simp

theorem flattenResults_join (rs : List LintEnvelope) :
    flattenResults rs = (rs.map LintEnvelope.results).flatten := by
  unfold flattenResults
  rw [flatten_foldl]
  simp

theorem flatten_map_singleton {α β : Type} (l : List α) (g : α → β) :
    (l.map (fun a => [g a])).flatten = l.map g := by
  induction l with
  | nil => rfl
  | cons x rest ih => simp [ih]

theorem flattenResults_singletons (perFile : List FileLintResult) :
    flattenResults (perFile.map (fun r => LintEnvelope.mk [r])) = perFile := by
  rw [flattenResults_join]
  simp only [List.map_map]
  have := flatten_map_singleton perFile id
  simpa using this

theorem onFile_pushed (opts : PluginOptions) (hint : Hint) (configLoad : ConfigLoad)
    (f : VinylFile) :
    (onFile opts hint configLoad f).pushed =
      if isBufferFile f then [lintEnvelopeOf opts hint configLoad f] else [] := by
  cases f with
  | mk path contents =>
    cases contents <;> simp [onFile, isBufferFile, lintEnvelopeOf, bufferTextOf]

theorem processFiles_foldl (opts : PluginOptions) (hint : Hint)
    (configLoad : ConfigLoad) (files : List VinylFile) :
    ∀ st : PipelineState,
      (files.foldl (processStep opts hint configLoad) st).lintPromiseList =
        st.lintPromiseList ++
          (files.filter isBufferFile).map (lintEnvelopeOf opts hint configLoad) := by
  induction files with
  | nil => intro st; simp
  | cons f rest ih =>
    intro st
    rw [List.foldl_cons, ih]
    by_cases hb : isBufferFile f = true
    · simp [processStep, onFile_pushed, hb, List.filter_cons]
    · simp [processStep, onFile_pushed, hb, List.filter_cons]

theorem processFiles_lintList (opts : PluginOptions) (hint : Hint)
    (configLoad : ConfigLoad) (files : List VinylFile) :
    (processFiles opts hint configLoad files).lintPromiseList =
      (files.filter isBufferFile).map (lintEnvelopeOf opts hint configLoad) := by
  unfold processFiles
  rw [processFiles_foldl]
  rfl

theorem lintEnvelopeOf_eq (opts : PluginOptions) (hint : Hint)
    (configLoad : ConfigLoad) (f : VinylFile) :
    lintEnvelopeOf opts hint configLoad f =
      LintEnvelope.mk [fileLintResultOf opts hint configLoad f] := by
  unfold lintEnvelopeOf fileLintResultOf
  rw [formatResult_spec]

theorem flattenResults_map_envelopes (opts : PluginOptions) (hint : Hint)
    (configLoad : ConfigLoad) (l : List VinylFile) :
    flattenResults (l.map (lintEnvelopeOf opts hint configLoad)) =
      l.map (fileLintResultOf opts hint configLoad) := by
  rw [flattenResults_join, List.map_map]
  have hfun : (LintEnvelope.results ∘ lintEnvelopeOf opts hint configLoad) =
      fun f => [fileLintResultOf opts hint configLoad f] := by
    funext f
    simp [Function.comp, lintEnvelopeOf_eq]
  rw [hfun, flatten_map_singleton]

theorem onStreamEnd_invocations (opts : PluginOptions) (reporters : List Reporter)
    (lintResults : List LintEnvelope) :
    (onStreamEnd opts reporters lintResults).reporterInvocations =
      reporters.map (fun _ => flattenResults lintResults) := by
  unfold onStreamEnd
  cases h : firstError (runReporters reporters (flattenResults lintResults)) <;>
    simp [h]

/-- Being a buffered file is the same as being neither null nor a stream. -/
theorem isBufferFile_eq_nonNull_nonStream (f : VinylFile) :
    isBufferFile f =
      (f.contents != FileContents.null && f.contents != FileContents.stream) := by
  cases f with
  | mk path contents => cases contents <;> rfl

/-! ## Association-list lemmas for the option resolver -/

theorem lookupField_eq_none_iff (l : List (String × JVal)) (k : String) :
    lookupField l k = none ↔ k ∉ l.map Prod.fst := by
  induction l with
  | nil => simp [lookupField]
  | cons p rest ih =>
    obtain ⟨k0, v0⟩ := p
    by_cases h : k0 = k
    · subst h
      simp [lookupField]
    · simp [lookupField, h, ih, Ne.symm h]

theorem lookupField_setField (tf : List (String × JVal)) (key : String) (v : JVal)
    (k : String) :
    lookupField (setField tf key v) k =
      if k = key then some v else lookupField tf k := by
  induction tf with
  | nil =>
    by_cases h : k = key
    · subst h; simp [setField, lookupField]
    · have h' : ¬ key = k := fun hh => h hh.symm
      simp [setField, lookupField, h, h']
  | cons p rest ih =>
    obtain ⟨k0, w⟩ := p
    by_cases h0 : k0 = key
    · subst h0
      by_cases hk : k = k0
      · subst hk; simp [setField, lookupField]
      · have hk' : ¬ k0 = k := fun hh => hk hh.symm
        simp [setField, lookupField, hk, hk']
    · by_cases hk0k : k0 = k
      · subst hk0k
        simp [setField, lookupField, h0]
      · simp [setField, lookupField, h0, hk0k, ih]

theorem setField_of_not_mem (tf : List (String × JVal)) (key : String) (v : JVal)
    (h : lookupField tf key = none) :
    setField tf key v = tf ++ [(key, v)] := by
  induction tf with
  | nil => rfl
  | cons p rest ih =>
    obtain ⟨k0, w⟩ := p
    by_cases h0 : k0 = key
    · subst h0; simp [lookupField] at h
    · simp [lookupField, h0] at h
      simp [setField, h0, ih h]

theorem lookupField_append (a b : List (String × JVal)) (k : String) :
    lookupField (a ++ b) k =
      match lookupField a k with
      | some v => some v
      | none => lookupField b k := by
  induction a with
  | nil => simp [lookupField]
  | cons p rest ih =>
    obtain ⟨k0, v0⟩ := p
    by_cases h : k0 = k
    · subst h; simp [lookupField]
    · simp [lookupField, h, ih]

theorem deepExtendFields_disjoint (sf : List (String × JVal)) :
    ∀ acc : List (String × JVal),
      (sf.map Prod.fst).Nodup →
      (∀ k ∈ sf.map Prod.fst, lookupField acc k = none) →
      deepExtendFields acc sf = acc ++ sf := by
  induction sf with
  | nil => intro acc _ _; simp [deepExtendFields]
  | cons p rest ih =>
    intro acc hnd hdisj
    obtain ⟨key, v⟩ := p
    have hacc : lookupField acc key = none := hdisj key (by simp)
    have hnd' : (rest.map Prod.fst).Nodup := (List.nodup_cons.mp hnd).2
    have hkey : key ∉ rest.map Prod.fst := (List.nodup_cons.mp hnd).1
    rw [deepExtendFields]
    simp only [hacc]
    rw [setField_of_not_mem acc key v hacc]
    rw [ih (acc ++ [(key, v)]) hnd']
    · simp
    · intro k hk
      rw [lookupField_append]
      have hne : lookupField acc k = none := hdisj k (by simp [hk])
      rw [hne]
      have : ¬ key = k := fun hh => hkey (hh ▸ hk)
      simp [lookupField, this]

theorem lookupField_deepExtendFields (sf : List (String × JVal)) :
    ∀ (tf : List (String × JVal)) (k : String),
      (sf.map Prod.fst).Nodup →
      lookupField (deepExtendFields tf sf) k =
        match lookupField sf k with
        | some v =>
          some (match lookupField tf k with
                | some old => deepExtendVal old v
                | none => v)
        | none => lookupField tf k := by
  induction sf with
  | nil => intro tf k _; simp [deepExtendFields, lookupField]
  | cons p rest ih =>
    intro tf k hnd
    obtain ⟨k0, v0⟩ := p
    have hnd' : (rest.map Prod.fst).Nodup := (List.nodup_cons.mp hnd).2
    have hk0 : k0 ∉ rest.map Prod.fst := (List.nodup_cons.mp hnd).1
    rw [deepExtendFields]
    rw [ih _ k hnd']
    by_cases hk : k = k0
    · subst hk
      have hrest : lookupField rest k = none :=
        (lookupField_eq_none_iff rest k).mpr hk0
      rw [hrest, lookupField_setField]
      simp [lookupField]
    · rw [lookupField_setField]
      simp only [hk, if_false]
      have hne : ¬ k0 = k := fun hh => hk (Eq.symm hh)
      simp [lookupField, hne]

theorem deleteField_cons (k0 : String) (v0 : JVal) (rest : List (String × JVal))
    (key : String) :
    deleteField ((k0, v0) :: rest) key =
      if k0 = key then deleteField rest key
      else (k0, v0) :: deleteField rest key := by
  by_cases h : k0 = key <;> simp [deleteField, List.filter_cons, h]

theorem lookupField_deleteField (l : List (String × JVal)) (key k : String) :
    lookupField (deleteField l key) k =
      if k = key then none else lookupField l k := by
  induction l with
  | nil => simp [deleteField, lookupField]
  | cons p rest ih =>
    obtain ⟨k0, v0⟩ := p
    rw [deleteField_cons]
    by_cases h0 : k0 = key
    · subst h0
      rw [if_pos rfl, ih]
      by_cases hk : k = k0
      · subst hk; simp
      · have hk' : ¬ k0 = k := fun hh => hk hh.symm
        simp [lookupField, hk, hk']
    · rw [if_neg h0]
      by_cases hk : k0 = k
      · subst hk
        have hkey : ¬ k0 = key := h0
        simp [lookupField, hkey]
      · simp [lookupField, hk, ih]

theorem lookupField_foldl_deleteField (keys : List String) :
    ∀ (l : List (String × JVal)) (k : String),
      lookupField (keys.foldl deleteField l) k =
        if k ∈ keys then none else lookupField l k := by
  induction keys with
  | nil => intro l k; simp
  | cons key rest ih =>
    intro l k
    rw [List.foldl_cons, ih]
    by_cases hk : k = key
    · subst hk
      by_cases hr : k ∈ rest
      · simp [hr]
      · simp [hr, lookupField_deleteField]
    · by_cases hr : k ∈ rest
      · simp [hr, hk]
      · simp [hr, hk, lookupField_deleteField]

/-! ## Claim theorems -/

/-- Claim C1: At the Deciding step, a fatal pipeline error is signaled iff
`failAfterError` is true and the count of warnings across all files whose
severity equals exactly `'error'` is greater than zero; the message is
exactly `"Failed with 1 error"` for count 1 and `"Failed with N errors"`
for count N > 1; with count 0 or `failAfterError` false nothing is
emitted. -/
theorem deciding_threshold_error (opts : PluginOptions)
    (perFile : List FileLintResult) :
    (decideErrors opts (perFile.map (fun r => LintEnvelope.mk [r])) ≠ [] ↔
      (opts.failAfterError = true ∧ 0 < specErrorCount perFile)) ∧
    (specErrorCount perFile = 1 → opts.failAfterError = true →
      decideErrors opts (perFile.map (fun r => LintEnvelope.mk [r])) =
        [{ message := "Failed with 1 error", showStack := false }]) ∧
    (1 < specErrorCount perFile → opts.failAfterError = true →
      decideErrors opts (perFile.map (fun r => LintEnvelope.mk [r])) =
        [{ message := "Failed with " ++ toString (specErrorCount perFile) ++ " errors",
           showStack := false }]) ∧
    (opts.failAfterError = false →
      decideErrors opts (perFile.map (fun r => LintEnvelope.mk [r])) = []) ∧
    (specErrorCount perFile = 0 →
      decideErrors opts (perFile.map (fun r => LintEnvelope.mk [r])) = []) := by
  have hc : errorCountOf (perFile.map (fun r => LintEnvelope.mk [r])) =
      specErrorCount perFile := errorCountOf_singletons perFile
  unfold decideErrors
  rw [hc]
  refine ⟨?_, ?_, ?_, ?_, ?_⟩
  · by_cases h : opts.failAfterError = true ∧ 0 < specErrorCount perFile
    · simp [h]
    · simp [h]
  · intro h1 hfae
    rw [if_pos ⟨hfae, by omega⟩, h1, thresholdMessage_one]
  · intro h1 hfae
    rw [if_pos ⟨hfae, by omega⟩, thresholdMessage_of_ne_one _ (by omega)]
  · intro h
    rw [if_neg]
    intro hcontra
    rw [h] at hcontra
    exact Bool.false_ne_true hcontra.1
  · intro h
    rw [if_neg]
    intro hcontra
    rw [h] at hcontra
    exact Nat.lt_irrefl 0 hcontra.2

theorem deciding_threshold_error_witness :
    specErrorCount [resultOneError] = 1 ∧
    decideErrors optsDefault ([resultOneError].map (fun r => LintEnvelope.mk [r])) =
      [{ message := "Failed with 1 error", showStack := false }] :=
  ⟨by decide,
   (deciding_threshold_error optsDefault [resultOneError]).2.1 (by decide) rfl⟩

/-- Claim C2, counterexample: An override entry may exist with a `severity`
field holding the empty string; the claim says that present value is then
used, but the code's `|| 'warning'` fallback yields `'warning'` instead. -/
theorem severity_empty_override_counterexample :
    lookupRule errorLevelEmptySeverity recordEmptySeverity.rule =
      some { severity := some "" } ∧
    (formatResult errorLevelEmptySeverity [recordEmptySeverity] "a.html").results.map
        (fun r => r.warnings.map (fun w => w.severity)) = [["warning"]] ∧
    ("warning" : String) ≠ "" := by
  refine ⟨rfl, rfl, by decide⟩

/-- Claim C2, amended: The normalizer computes each warning's severity as:
an existing override entry with a non-empty `severity` value wins; an
existing entry whose `severity` is absent or the empty string gives
`'warning'`; no entry gives the lower-cased native type — stated against
the spec-side resolution `specSeverity`. -/
theorem severity_resolution (errorLevel : ErrorLevel) (records : List IssueRecord)
    (source : String) :
    (formatResult errorLevel records source).results.map
        (fun r => r.warnings.map (fun w => w.severity)) =
      [records.map (specSeverity errorLevel)] := by
  rw [formatResult_spec]
  simp [List.map_map, toWarning, computeSeverity_eq_specSeverity, Function.comp]

/-- Claim C3: The `errored` flag of the produced `FileLintResult` is true iff
at least one input record has type `'ERROR'` (regardless of `errorLevel`
overrides). -/
theorem errored_iff_type_error (errorLevel : ErrorLevel)
    (records : List IssueRecord) (source : String) :
    ∃ r, (formatResult errorLevel records source).results = [r] ∧
      (r.errored = true ↔ ∃ i ∈ records, i.type = "ERROR") := by
  rw [formatResult_spec]
  refine ⟨_, rfl, ?_⟩
  simp [List.any_eq_true]

theorem errored_iff_type_error_witness :
    ∃ r, (formatResult errorLevelOverrides [recordErrorOverridden] "a.html").results = [r] ∧
      (r.errored = true ↔ ∃ i ∈ [recordErrorOverridden], i.type = "ERROR") :=
  errored_iff_type_error errorLevelOverrides [recordErrorOverridden] "a.html"

/-- Claim C4: After the whole stream is processed, each configured reporter
is invoked exactly once with the flattened sequence of per-file results —
one entry per non-null, non-stream file, in original file-arrival order. -/
theorem reporters_invoked_once_ordered (opts : PluginOptions) (hint : Hint)
    (configLoad : ConfigLoad) (reporters : List Reporter)
    (files : List VinylFile) :
    (onStreamEnd opts reporters
        (processFiles opts hint configLoad files).lintPromiseList).reporterInvocations =
      reporters.map (fun _ =>
        (files.filter isBufferFile).map (fileLintResultOf opts hint configLoad)) ∧
    ((files.filter isBufferFile).map (fileLintResultOf opts hint configLoad)).length =
      (files.filter (fun f =>
        f.contents != FileContents.null && f.contents != FileContents.stream)).length := by
  constructor
  · rw [onStreamEnd_invocations, processFiles_lintList, flattenResults_map_envelopes]
  · rw [List.length_map]
    congr 1
    exact List.filter_congr (fun f _ => isBufferFile_eq_nonNull_nonStream f)

/-- Claim C5: A stream-content file makes `onFile` emit the fatal
`'Streaming is not supported'` error and call `done()` with no arguments:
the file is not forwarded and no lint result is recorded. -/
theorem stream_file_rejected (opts : PluginOptions) (hint : Hint)
    (configLoad : ConfigLoad) (path : String) :
    onFile opts hint configLoad { path := path, contents := FileContents.stream } =
      { emitted := [{ message := "Streaming is not supported", showStack := false }]
        pushed := []
        forwarded := none
        doneCalls := 1 } := rfl

/-- Claim C6: A null-content file is forwarded downstream unchanged, `done`
is called once, no error is emitted and the pending results list is left
untouched. -/
theorem null_file_passthrough (opts : PluginOptions) (hint : Hint)
    (configLoad : ConfigLoad) (path : String) :
    onFile opts hint configLoad { path := path, contents := FileContents.null } =
      { emitted := []
        pushed := []
        forwarded := some { path := path, contents := FileContents.null }
        doneCalls := 1 } := rfl

/-- Claim C7: When `configFile` is set and loading it fails, `onFile` emits a
pipeline error whose `showStack` equals the `debug` option, then continues
with the default lint function: the file is still linted, a result is
still appended, and the file is still forwarded downstream. -/
theorem config_load_failure_nonfatal (opts : PluginOptions) (hint : Hint)
    (configLoad : ConfigLoad) (path text cfgPath msg : String)
    (hcfg : opts.configFile = some cfgPath)
    (hload : configLoad cfgPath = Except.error msg) :
    onFile opts hint configLoad { path := path, contents := FileContents.buffer text } =
      { emitted := [{ message := msg, showStack := opts.debug }]
        pushed := [formatResult opts.errorLevel (hint text none) path]
        forwarded := some { path := path, contents := FileContents.buffer text }
        doneCalls := 1 } := by
  simp [onFile, resolveHintConfig, hcfg, hload]

theorem config_load_failure_nonfatal_witness :
    optsWithConfig.configFile = some ".htmlcsrc" ∧
    configLoadFailing ".htmlcsrc" = Except.error "Unexpected token" ∧
    onFile optsWithConfig hintEmpty configLoadFailing
        { path := "a.html", contents := FileContents.buffer "<p>" } =
      { emitted := [{ message := "Unexpected token", showStack := true }]
        pushed := [formatResult optsWithConfig.errorLevel (hintEmpty "<p>" none) "a.html"]
        forwarded := some { path := "a.html", contents := FileContents.buffer "<p>" }
        doneCalls := 1 } :=
  ⟨rfl, rfl,
   config_load_failure_nonfatal optsWithConfig hintEmpty configLoadFailing
     "a.html" "<p>" ".htmlcsrc" "Unexpected token" rfl rfl⟩

/-- Claim C8: `onStreamEnd` invokes the stream-completion callback exactly
once regardless of outcome; a reporter rejection is reported with
`showStack` equal to the `debug` option and the Deciding step is skipped,
while a clean reporting pass proceeds to the Deciding step. -/
theorem stream_completion_always_signaled (opts : PluginOptions)
    (reporters : List Reporter) (lintResults : List LintEnvelope) :
    (onStreamEnd opts reporters lintResults).doneCalls = 1 ∧
    (∀ e, firstError (runReporters reporters (flattenResults lintResults)) = some e →
      (onStreamEnd opts reporters lintResults).emitted =
        [{ message := e, showStack := opts.debug }]) ∧
    (firstError (runReporters reporters (flattenResults lintResults)) = none →
      (onStreamEnd opts reporters lintResults).emitted =
        decideErrors opts lintResults) := by
  unfold onStreamEnd
  cases h : firstError (runReporters reporters (flattenResults lintResults)) with
  | none => simp [h]
  | some e => simp [h]

theorem stream_completion_always_signaled_witness :
    (onStreamEnd optsDefault [reporterFailing] []).doneCalls = 1 ∧
    (onStreamEnd optsDefault [reporterFailing] []).emitted =
      [{ message := "reporter blew up", showStack := false }] :=
  ⟨(stream_completion_always_signaled optsDefault [reporterFailing] []).1,
   (stream_completion_always_signaled optsDefault [reporterFailing] []).2.1
     "reporter blew up" rfl⟩

theorem deepExtendVal_bool (b : Bool) (v : JVal) :
    deepExtendVal (JVal.bool b) v = v := by
  cases v <;> simp [deepExtendVal]

theorem deepExtendVal_emptyObj (v : JVal)
    (h : ∀ f, v = JVal.obj f → (f.map Prod.fst).Nodup) :
    deepExtendVal (JVal.obj []) v = v := by
  cases v with
  | obj f =>
    have hnd := h f rfl
    have hdisj : ∀ k ∈ f.map Prod.fst, lookupField [] k = none := fun _ _ => rfl
    have := deepExtendFields_disjoint f [] hnd hdisj
    simp [deepExtendVal]
    simpa using this
  | nullv => simp [deepExtendVal]
  | bool b => simp [deepExtendVal]
  | num n => simp [deepExtendVal]
  | str s => simp [deepExtendVal]
  | arr a => simp [deepExtendVal]

/-- Claim C9: The option resolver: `pluginOptions` holds the caller's value
at every key the caller supplies (caller wins over the defaults, the deep
merge preserving the caller's `errorLevel` object over the empty default)
and the default value elsewhere; `lintOptions` is a copy of the caller's
options with exactly the fields `files`, `formatter`, `reportOutputDir`,
`reporters`, `debug` removed; an absent options argument acts as an empty
options set. -/
theorem option_resolver_contract (caller : List (String × JVal))
    (hnd : (caller.map Prod.fst).Nodup)
    (hel : ∀ f, lookupField caller "errorLevel" = some (JVal.obj f) →
      (f.map Prod.fst).Nodup) :
    (∀ k, lookupField (mkLintOptionsVal (some caller)) k =
      if k ∈ strippedFields then none else lookupField caller k) ∧
    (∀ k, lookupField (mkPluginOptionsVal (some caller)) k =
      match lookupField caller k with
      | some v => some v
      | none => lookupField defaultOptions k) ∧
    mkPluginOptionsVal none = defaultOptions ∧
    mkLintOptionsVal none = [] := by
  have hcopied : deepExtendFields [] caller = caller := by
    have := deepExtendFields_disjoint caller [] hnd (fun _ _ => rfl)
    simpa using this
  refine ⟨?_, ?_, rfl, rfl⟩
  · intro k
    show lookupField (strippedFields.foldl deleteField (deepExtendFields [] caller)) k = _
    rw [lookupField_foldl_deleteField, hcopied]
  · intro k
    show lookupField (deepExtendFields defaultOptions caller) k = _
    rw [lookupField_deepExtendFields caller defaultOptions k hnd]
    cases hc : lookupField caller k with
    | none => rfl
    | some v =>
      by_cases h1 : k = "failAfterError"
      · subst h1
        simp only [show lookupField defaultOptions "failAfterError" =
          some (JVal.bool true) from rfl]
        rw [deepExtendVal_bool]
      · by_cases h2 : k = "debug"
        · subst h2
          simp only [show lookupField defaultOptions "debug" =
            some (JVal.bool false) from rfl]
          rw [deepExtendVal_bool]
        · by_cases h3 : k = "errorLevel"
          · subst h3
            simp only [show lookupField defaultOptions "errorLevel" =
              some (JVal.obj []) from rfl]
            rw [deepExtendVal_emptyObj v
              (fun f hf => hel f (hc.trans (congrArg some hf)))]
          · have h1' : ¬ "failAfterError" = k := fun hh => h1 hh.symm
            have h2' : ¬ "debug" = k := fun hh => h2 hh.symm
            have h3' : ¬ "errorLevel" = k := fun hh => h3 hh.symm
            simp only [show lookupField defaultOptions k = none by
              simp [defaultOptions, lookupField, h1', h2', h3']]

theorem option_resolver_contract_witness :
    (callerOptions.map Prod.fst).Nodup ∧
    lookupField (mkLintOptionsVal (some callerOptions)) "reporters" = none ∧
    lookupField (mkLintOptionsVal (some callerOptions)) "configFile" =
      some (JVal.str ".htmlcsrc") ∧
    lookupField (mkPluginOptionsVal (some callerOptions)) "failAfterError" =
      some (JVal.bool false) ∧
    lookupField (mkPluginOptionsVal (some callerOptions)) "debug" =
      some (JVal.bool false) := by
  have hnd : (callerOptions.map Prod.fst).Nodup := by decide
  have hel : ∀ f, lookupField callerOptions "errorLevel" = some (JVal.obj f) →
      (f.map Prod.fst).Nodup := by
    intro f hf
    have hval : lookupField callerOptions "errorLevel" =
        some (JVal.obj [("no-empty-tag", JVal.obj [("severity", JVal.str "error")])]) :=
      rfl
    rw [hval] at hf
    have h2 := Option.some.inj hf
    injection h2 with h3
    subst h3
    decide
  have h := option_resolver_contract callerOptions hnd hel
  refine ⟨hnd, ?_, ?_, ?_, ?_⟩
  · rw [h.1 "reporters", if_pos (by decide)]
  · rw [h.1 "configFile", if_neg (by decide)]
    rfl
  · rw [h.2.1 "failAfterError"]
    rfl
  · rw [h.2.1 "debug"]
    rfl

theorem filter_error_nil_of_override (errorLevel : ErrorLevel)
    (records : List IssueRecord)
    (hover : ∀ i ∈ records, ∃ s,
      lookupRule errorLevel i.rule = some { severity := some s } ∧ s ≠ "error") :
    (records.map (toWarning errorLevel)).filter isErrorSeverity = [] := by
  rw [List.filter_eq_nil_iff]
  intro w hw
  obtain ⟨i, hi, rfl⟩ := List.mem_map.mp hw
  obtain ⟨s, hs, hne⟩ := hover i hi
  simp only [isErrorSeverity, toWarning, computeSeverity, hs, overrideSeverity,
    jsStringOr]
  by_cases h0 : s = ""
  · simp [h0]
  · simp [h0, hne]

/-- Claim C10: The pass/fail decision depends only on post-override
severities, not the `errored` flag: error-typed records demoted by
`errorLevel` leave `errored = true` yet contribute nothing to the error
count, so no threshold error fires; a warning-typed record escalated to
severity `'error'` leaves `errored = false` yet triggers the threshold
error. -/
theorem threshold_depends_on_severity_not_errored :
    (∀ (opts : PluginOptions) (records : List IssueRecord) (source : String),
      opts.failAfterError = true →
      records ≠ [] →
      (∀ i ∈ records, i.type = "ERROR") →
      (∀ i ∈ records, ∃ s, lookupRule opts.errorLevel i.rule =
        some { severity := some s } ∧ s ≠ "error") →
      ∃ r, (formatResult opts.errorLevel records source).results = [r] ∧
        r.errored = true ∧
        specErrorCount [r] = 0 ∧
        decideErrors opts [LintEnvelope.mk [r]] = []) ∧
    (∀ (opts : PluginOptions) (i : IssueRecord) (source : String),
      opts.failAfterError = true →
      i.type = "WARNING" →
      lookupRule opts.errorLevel i.rule = some { severity := some "error" } →
      ∃ r, (formatResult opts.errorLevel [i] source).results = [r] ∧
        r.errored = false ∧
        decideErrors opts [LintEnvelope.mk [r]] =
          [{ message := "Failed with 1 error", showStack := false }]) := by
  constructor
  · intro opts records source hfae hne hall hover
    have hflt := filter_error_nil_of_override opts.errorLevel records hover
    refine ⟨{ source := source
              errored := records.any (fun i => i.type == "ERROR")
              warnings := records.map (toWarning opts.errorLevel)
              deprecations := []
              invalidOptionWarnings := []
              ignored := false }, ?_, ?_, ?_, ?_⟩
    · rw [formatResult_spec]
    · cases records with
      | nil => exact absurd rfl hne
      | cons i rest => simp [hall i (by simp)]
    · simpa [specErrorCount, isErrorSeverity] using congrArg List.length hflt
    · unfold decideErrors
      rw [if_neg]
      intro hcontra
      have hcnt : (0 : Nat) <
          ((records.map (toWarning opts.errorLevel)).filter isErrorSeverity).length := by
        have := hcontra.2
        simpa [errorCountOf, countFileErrors] using this
      rw [hflt] at hcnt
      exact Nat.lt_irrefl 0 hcnt
  · intro opts i source hfae htype hrule
    have hsev : computeSeverity opts.errorLevel i = "error" := by
      simp [computeSeverity, hrule, overrideSeverity, jsStringOr]
    refine ⟨{ source := source
              errored := [i].any (fun j => j.type == "ERROR")
              warnings := [i].map (toWarning opts.errorLevel)
              deprecations := []
              invalidOptionWarnings := []
              ignored := false }, ?_, ?_, ?_⟩
    · rw [formatResult_spec]
    · simp [htype]
    · have hcnt : errorCountOf [LintEnvelope.mk
          [({ source := source, errored := [i].any (fun j => j.type == "ERROR"),
              warnings := [i].map (toWarning opts.errorLevel), deprecations := [],
              invalidOptionWarnings := [], ignored := false } : FileLintResult)]] = 1 := by
        simp [errorCountOf, countFileErrors, isErrorSeverity, toWarning, hsev]
      unfold decideErrors
      rw [hcnt, if_pos ⟨hfae, by omega⟩, thresholdMessage_one]

theorem threshold_depends_on_severity_not_errored_witness :
    (∃ r, (formatResult optsOverride.errorLevel [recordErrorOverridden] "a.html").results = [r] ∧
      r.errored = true ∧
      specErrorCount [r] = 0 ∧
      decideErrors optsOverride [LintEnvelope.mk [r]] = []) ∧
    (∃ r, (formatResult optsOverride.errorLevel [recordWarningEscalated] "b.html").results = [r] ∧
      r.errored = false ∧
      decideErrors optsOverride [LintEnvelope.mk [r]] =
        [{ message := "Failed with 1 error", showStack := false }]) := by
  constructor
  · refine threshold_depends_on_severity_not_errored.1 optsOverride
      [recordErrorOverridden] "a.html" rfl (by decide) (by decide) ?_
    intro i hi
    have : i = recordErrorOverridden := by simpa using hi
    subst this
    exact ⟨"warning", rfl, by decide⟩
  · exact threshold_depends_on_severity_not_errored.2 optsOverride
      recordWarningEscalated "b.html" rfl rfl rfl

end GulpHtmlcs
